import Mathlib

/-!
# Verification of the rails-schema multi-dialect schema parser

Shallow embedding of `src/services/schemaParser.ts`: the four dialect
scanners (`parseRails`, `parseSQL`, `parsePrisma`, `parseDjango`), the
relationship inferencer embedded in `parseRails`, and the dialect
dispatcher `parseSchema`.  All string processing is modelled over
`List Char`; the JavaScript regexes are translated into deterministic
matchers that mirror each pattern's structure (the patterns involved
need no general backtracking because the character classes at each
boundary are disjoint, except where noted; `?` groups are translated
with an explicit alternative where backtracking is observable).
-/

namespace RailsSchema

/-! ## JavaScript string primitives -/

/-- JS `\w` character class: `[A-Za-z0-9_]`. -/
def isWordChar (c : Char) : Bool :=
  c.isAlpha || c.isDigit || c = '_'

/-- JS `\s` character class (ASCII part: space, tab, newline, carriage
return, vertical tab, form feed; the inputs considered are ASCII). -/
def isJsSpace (c : Char) : Bool :=
  c = ' ' || c = '\t' || c = '\n' || c = '\r' || c = '\x0b' || c = '\x0c'

/-- JS `String.prototype.trim` (on ASCII input). -/
def jsTrim (s : List Char) : List Char :=
  ((s.dropWhile isJsSpace).reverse.dropWhile isJsSpace).reverse

/-- JS `String.prototype.split(sep)` for a one-character separator. -/
def splitOnChar (sep : Char) : List Char → List (List Char)
  | [] => [[]]
  | c :: rest =>
    let r := splitOnChar sep rest
    if c = sep then [] :: r
    else
      match r with
      | [] => [[c]]
      | h :: t => (c :: h) :: t

/-- Substring containment, JS `String.prototype.includes`. -/
def containsSub (pat : List Char) : List Char → Bool
  | [] => pat.isPrefixOf []
  | c :: rest => pat.isPrefixOf (c :: rest) || containsSub pat rest

/-- ASCII upper-casing, JS `String.prototype.toUpperCase`. -/
def jsToUpper (s : List Char) : List Char := s.map Char.toUpper

/-- ASCII lower-casing, JS `String.prototype.toLowerCase`. -/
def jsToLower (s : List Char) : List Char := s.map Char.toLower

/-- JS `String.prototype.indexOf(c)` (`none` for `-1`). -/
def firstIdxOf (c : Char) : List Char → Option Nat
  | [] => none
  | d :: rest =>
    if d = c then some 0
    else (firstIdxOf c rest).map Nat.succ

/-- JS `String.prototype.lastIndexOf(c)` (`none` for `-1`). -/
def lastIdxOf (c : Char) : List Char → Option Nat
  | [] => none
  | d :: rest =>
    match lastIdxOf c rest with
    | some i => some (i + 1)
    | none => if d = c then some 0 else none

/-- JS `String.prototype.substring(a, b)`: clamps and swaps its
arguments when `a > b`. -/
def jsSubstring (s : List Char) (a b : Nat) : List Char :=
  (s.take (max a b)).drop (min a b)

/-! ## Regex building blocks

Each combinator consumes a prefix of the input and returns the rest
(`none` when the piece does not match at this position). -/

/-- Literal, case sensitive. -/
def lit (pat : List Char) (s : List Char) : Option (List Char) :=
  if pat.isPrefixOf s then some (s.drop pat.length) else none

/-- Literal, case insensitive (the `/i` flag; ASCII). -/
def litCI : List Char → List Char → Option (List Char)
  | [], s => some s
  | _, [] => none
  | p :: ps, c :: cs =>
    if c.toLower = p.toLower then litCI ps cs else none

/-- `\s+`. -/
def spaces1 (s : List Char) : Option (List Char) :=
  match s with
  | c :: rest => if isJsSpace c then some (rest.dropWhile isJsSpace) else none
  | [] => none

/-- `\s*`. -/
def spaces0 (s : List Char) : List Char :=
  s.dropWhile isJsSpace

/-- `(\w+)`: captures the maximal nonempty run of word characters. -/
def word1 (s : List Char) : Option (List Char × List Char) :=
  match s with
  | c :: _ =>
    if isWordChar c then some (s.takeWhile isWordChar, s.dropWhile isWordChar)
    else none
  | [] => none

/-- A single character drawn from a set, `?`-optional. -/
def optCharOf (set : List Char) (s : List Char) : List Char :=
  match s with
  | c :: rest => if set.contains c then rest else s
  | [] => s

/-- Expect one specific character. -/
def chr (c : Char) (s : List Char) : Option (List Char) :=
  match s with
  | d :: rest => if d = c then some rest else none
  | [] => none

/-- Unanchored regex search: try the pattern at each start position,
left to right (JS `String.prototype.match` without `^`). -/
def searchFirst (f : List Char → Option α) : List Char → Option α
  | [] => f []
  | c :: rest =>
    match f (c :: rest) with
    | some a => some a
    | none => searchFirst f rest

/-! ## Data model (`types.ts`) -/

/-- `Column`: `name`, raw `type` token, optional free-text `details`. -/
structure Column where
  name : String
  type : String
  details : Option String
deriving Repr, DecidableEq

/-- `Table`: identifier plus columns in declaration order. -/
structure Table where
  id : String
  columns : List Column
deriving Repr, DecidableEq

/-- `Relationship`: directed `source → target` edge with an optional
foreign-key `column`. -/
structure Relationship where
  source : String
  target : String
  column : Option String
deriving Repr, DecidableEq

/-- `SchemaData`: the assembled model. -/
structure SchemaData where
  tables : List Table
  relationships : List Relationship
  rawContent : String
deriving Repr, DecidableEq

/-! ## Dialect-A scanner (`parseRails`) -/

/-- `createTableRegex = /create_table\s+"(\w+)"/` at one position. -/
def railsCreateTableAt (s : List Char) : Option (List Char) := do
  let s ← lit "create_table".data s
  let s ← spaces1 s
  let s ← chr '"' s
  let (name, s) ← word1 s
  let _ ← chr '"' s
  pure name

/-- Search form of `createTableRegex`. -/
def railsCreateTableMatch (s : List Char) : Option (List Char) :=
  searchFirst railsCreateTableAt s

/-- `columnRegex = /t\.(\w+)\s+"(\w+)"(.*)/` at one position; the third
capture is the remainder of the line. -/
def railsColumnAt (s : List Char) : Option (List Char × List Char × List Char) := do
  let s ← lit "t.".data s
  let (ty, s) ← word1 s
  let s ← spaces1 s
  let s ← chr '"' s
  let (name, s) ← word1 s
  let rest ← chr '"' s
  pure (ty, name, rest)

/-- Search form of `columnRegex`. -/
def railsColumnMatch (s : List Char) : Option (List Char × List Char × List Char) :=
  searchFirst railsColumnAt s

/-- `foreignKeyRegex = /add_foreign_key\s+"(\w+)",\s+"(\w+)"/` at one
position. -/
def railsFkAt (s : List Char) : Option (List Char × List Char) := do
  let s ← lit "add_foreign_key".data s
  let s ← spaces1 s
  let s ← chr '"' s
  let (src, s) ← word1 s
  let s ← chr '"' s
  let s ← chr ',' s
  let s ← spaces1 s
  let s ← chr '"' s
  let (tgt, s) ← word1 s
  let _ ← chr '"' s
  pure (src, tgt)

/-- Search form of `foreignKeyRegex`. -/
def railsFkMatch (s : List Char) : Option (List Char × List Char) :=
  searchFirst railsFkAt s

/-- Scanner state: finished tables, the currently open table (the JS
code keeps a mutable `currentTable` reference that aliases the last
array element; here the open table is held apart and flushed when it
closes, which yields the same final array), and the explicit
relationships seen so far. -/
structure ScanState where
  finished : List Table
  cur : Option Table
  rels : List Relationship

/-- Move the open table (if any) into the finished list. -/
def scanFlush (st : ScanState) : List Table :=
  st.finished ++ st.cur.toList

/-- One iteration of the `lines.forEach` body in `parseRails`. -/
def railsLine (st : ScanState) (line : List Char) : ScanState :=
  let tl := jsTrim line
  match railsCreateTableMatch tl with
  | some name =>
    { finished := scanFlush st, cur := some ⟨String.mk name, []⟩, rels := st.rels }
  | none =>
    if tl = "end".data ∧ st.cur.isSome then
      { finished := scanFlush st, cur := none, rels := st.rels }
    else
      let st1 :=
        match st.cur, railsColumnMatch tl with
        | some t, some (ty, name, details) =>
          { st with cur := some { t with columns := t.columns ++
              [⟨String.mk name, String.mk ty,
                if details = [] then none else some (String.mk (jsTrim details))⟩] } }
        | _, _ => st
      match railsFkMatch tl with
      | some (src, tgt) =>
        { st1 with rels := st1.rels ++ [⟨String.mk src, String.mk tgt, none⟩] }
      | none => st1

/-- The implicit-relationship inference pass of `parseRails`: for each
column `<x>_id`, candidate targets `[x+"s", x+"es", x]`; `tables.find`
returns the first table (in declaration order) whose id is among the
candidates; the edge is appended unless some existing relationship
already has the same `(source, target)` pair. -/
def railsInfer (tables : List Table) (rels : List Relationship) : List Relationship :=
  tables.foldl (fun acc tbl =>
    tbl.columns.foldl (fun acc2 col =>
      if col.name.data.reverse.take 3 = "_id".data.reverse then
        let singular := String.mk (col.name.data.dropLast.dropLast.dropLast)
        let targets := [singular ++ "s", singular ++ "es", singular]
        match tables.find? (fun t => targets.contains t.id) with
        | some mt =>
          if acc2.any (fun r => r.source = tbl.id ∧ r.target = mt.id) then acc2
          else acc2 ++ [⟨tbl.id, mt.id, some col.name⟩]
        | none => acc2
      else acc2) acc) rels

/-- `parseRails` from `schemaParser.ts`. -/
def parseRails (content : String) : SchemaData :=
  let lines := splitOnChar '\n' content.data
  let st := lines.foldl railsLine ⟨[], none, []⟩
  let tables := scanFlush st
  { tables := tables
    relationships := railsInfer tables st.rels
    rawContent := content }

/-! ## Dialect-B scanner (`parseSQL`) -/

/-- The first `content.replace` in `parseSQL` (pattern `--.*$`, flags
`gm`): drop from each `--` to the end of its line, keeping the newline
(`$` under the `m` flag stops before it). -/
def stripLineCommentsAux : Bool → List Char → List Char
  | _, [] => []
  | true, c :: rest =>
    if c = '\n' then c :: stripLineCommentsAux false rest
    else stripLineCommentsAux true rest
  | false, '-' :: '-' :: rest => stripLineCommentsAux true rest
  | false, c :: rest => c :: stripLineCommentsAux false rest

def stripLineComments (s : List Char) : List Char :=
  stripLineCommentsAux false s

/-- `.replace(/\/\*[\s\S]*?\*\//g, '')`: lazy block comments.  An
opening `/*` with no later `*/` is not a match and is kept verbatim
(and then nothing later can match either, since no `*/` remains). -/
def stripBlockCommentsAux : Bool → List Char → List Char
  | true, '*' :: '/' :: rest => stripBlockCommentsAux false rest
  | true, _ :: rest => stripBlockCommentsAux true rest
  | true, [] => []
  | false, '/' :: '*' :: rest =>
    if containsSub "*/".data rest then stripBlockCommentsAux true rest
    else '/' :: '*' :: rest
  | false, c :: rest => c :: stripBlockCommentsAux false rest
  | false, [] => []

def stripBlockComments (s : List Char) : List Char :=
  stripBlockCommentsAux false s

/-- The opening-quote class `["\x60\[]` of the SQL regexes. -/
def sqlOpenQuote : List Char := ['"', '`', '[']

/-- The closing-quote class `["\x60\]]` of the SQL regexes. -/
def sqlCloseQuote : List Char := ['"', '`', ']']

/-- The `(?:["\x60\[])?(\w+)` tail of `createTableRegex`: optional open
quote, then the captured name (the trailing optional close quote does
not affect the capture). -/
def sqlTableNameAfter (s : List Char) : Option (List Char) := do
  let s := optCharOf sqlOpenQuote s
  let (name, _) ← word1 s
  pure name

/-- `IF\s+NOT\s+EXISTS\s+` (case-insensitive). -/
def sqlIfNotExists (s : List Char) : Option (List Char) := do
  let s ← litCI "IF".data s
  let s ← spaces1 s
  let s ← litCI "NOT".data s
  let s ← spaces1 s
  let s ← litCI "EXISTS".data s
  spaces1 s

/-- `createTableRegex = /CREATE\s+TABLE\s+(?:IF\s+NOT\s+EXISTS\s+)?
(?:["\x60\[])?(\w+)(?:["\x60\]])?/i` at one position.  The optional
`IF NOT EXISTS` group is tried first and the engine backtracks to the
group-less reading if the remainder then fails. -/
def sqlCreateTableAt (s : List Char) : Option (List Char) := do
  let s ← litCI "CREATE".data s
  let s ← spaces1 s
  let s ← litCI "TABLE".data s
  let s ← spaces1 s
  match sqlIfNotExists s with
  | some s' => (sqlTableNameAfter s').orElse (fun _ => sqlTableNameAfter s)
  | none => sqlTableNameAfter s

/-- Search form of the SQL `createTableRegex`. -/
def sqlCreateTableMatch (s : List Char) : Option (List Char) :=
  searchFirst sqlCreateTableAt s

/-- `columnLineRegex = /^\s*(?:["\x60\[])?(\w+)(?:["\x60\]])?\s+
([A-Z0-9_]+)(.*)$/i` (anchored; `[A-Z0-9_]+` under `/i` is `\w+`; the
third capture is the remainder of the line). -/
def sqlColumnLineMatch (s : List Char) : Option (List Char × List Char × List Char) := do
  let s := spaces0 s
  let s := optCharOf sqlOpenQuote s
  let (name, s) ← word1 s
  let s := optCharOf sqlCloseQuote s
  let s ← spaces1 s
  let (ty, rest) ← word1 s
  pure (name, ty, rest)

/-- `inlineFkRegex = /FOREIGN\s+KEY\s*\((?:["\x60\[])?(\w+)
(?:["\x60\]])?\)\s*REFERENCES\s+(?:["\x60\[])?(\w+)(?:["\x60\]])?/i`
at one position; returns (column, target). -/
def inlineFkAt (s : List Char) : Option (List Char × List Char) := do
  let s ← litCI "FOREIGN".data s
  let s ← spaces1 s
  let s ← litCI "KEY".data s
  let s := spaces0 s
  let s ← chr '(' s
  let s := optCharOf sqlOpenQuote s
  let (col, s) ← word1 s
  let s := optCharOf sqlCloseQuote s
  let s ← chr ')' s
  let s := spaces0 s
  let s ← litCI "REFERENCES".data s
  let s ← spaces1 s
  let s := optCharOf sqlOpenQuote s
  let (tgt, _) ← word1 s
  pure (col, tgt)

/-- Search form of `inlineFkRegex`. -/
def inlineFkMatch (s : List Char) : Option (List Char × List Char) :=
  searchFirst inlineFkAt s

/-- Greedy `.*` (no newline) followed by a pattern: try the longest
non-newline prefix first, backtracking towards the empty prefix. -/
def searchLastNoNL (f : List Char → Option α) (s : List Char) : Option α :=
  let n := (s.takeWhile (fun c => ¬ c = '\n')).length
  ((List.range (n + 1)).reverse).findSome? (fun i => f (s.drop i))

/-- The `ADD\s+CONSTRAINT.*FOREIGN KEY ... REFERENCES ...` tail of
`alterTableFkRegex` (the part after `.*` coincides with
`inlineFkRegex`). -/
def alterAddConstraintAt (s : List Char) : Option (List Char × List Char) := do
  let s ← litCI "ADD".data s
  let s ← spaces1 s
  let s ← litCI "CONSTRAINT".data s
  searchLastNoNL inlineFkAt s

/-- `alterTableFkRegex = /ALTER\s+TABLE\s+(?:["\x60\[])?(\w+)
(?:["\x60\]])?[\s\S]*?ADD\s+CONSTRAINT.*FOREIGN\s+KEY\s*\(...\)\s*
REFERENCES\s+.../i` at one position; the lazy `[\s\S]*?` scans forward
to the first position where the remainder matches.  Returns
(source, column, target). -/
def alterTableFkAt (s : List Char) : Option (List Char × List Char × List Char) := do
  let s ← litCI "ALTER".data s
  let s ← spaces1 s
  let s ← litCI "TABLE".data s
  let s ← spaces1 s
  let s := optCharOf sqlOpenQuote s
  let (src, s) ← word1 s
  let s := optCharOf sqlCloseQuote s
  match searchFirst alterAddConstraintAt s with
  | some (col, tgt) => pure (src, col, tgt)
  | none => none

/-- Search form of `alterTableFkRegex`. -/
def alterTableFkMatch (s : List Char) : Option (List Char × List Char × List Char) :=
  searchFirst alterTableFkAt s

/-- One iteration of the `lines.forEach` over the clauses of a CREATE
TABLE body: an inline FOREIGN KEY clause yields a relationship (and no
column); otherwise a clause matching the column shape — unless it
starts with `PRIMARY`/`FOREIGN`/`CONSTRAINT` after upper-casing —
yields a column. -/
def sqlBodyLine (tableName : List Char) (acc : List Column × List Relationship)
    (line : List Char) : List Column × List Relationship :=
  match inlineFkMatch line with
  | some (col, tgt) =>
    (acc.1, acc.2 ++ [⟨String.mk tableName, String.mk tgt, some (String.mk col)⟩])
  | none =>
    match sqlColumnLineMatch line with
    | some (name, ty, rest) =>
      if ¬ "PRIMARY".data.isPrefixOf (jsToUpper line) ∧
         ¬ "FOREIGN".data.isPrefixOf (jsToUpper line) ∧
         ¬ "CONSTRAINT".data.isPrefixOf (jsToUpper line) then
        (acc.1 ++ [⟨String.mk name, String.mk ty, some (String.mk (jsTrim rest))⟩], acc.2)
      else acc
    | none => acc

/-- One iteration of the `statements.forEach` body in `parseSQL`:
an optional created table plus the relationships this statement
contributes (inline FKs first, then an ALTER TABLE match). -/
def sqlStatement (stmt : List Char) : Option Table × List Relationship :=
  let cleanStmt := jsTrim stmt
  let (tbl, rels1) : Option Table × List Relationship :=
    match sqlCreateTableMatch cleanStmt with
    | some name =>
      match firstIdxOf '(' cleanStmt, lastIdxOf ')' cleanStmt with
      | some bs, some be =>
        let body := jsSubstring cleanStmt (bs + 1) be
        let lines := (splitOnChar ',' body).map jsTrim
        let (cols, fks) := lines.foldl (sqlBodyLine name) ([], [])
        (some ⟨String.mk name, cols⟩, fks)
      | _, _ => (some ⟨String.mk name, []⟩, [])
    | none => (none, [])
  let rels2 :=
    match alterTableFkMatch cleanStmt with
    | some (src, col, tgt) => [⟨String.mk src, String.mk tgt, some (String.mk col)⟩]
    | none => []
  (tbl, rels1 ++ rels2)

/-- `parseSQL` from `schemaParser.ts`: strip comments from a working
copy, split into statements on `;`, process each statement; the raw
content keeps the original text. -/
def parseSQL (content : String) : SchemaData :=
  let cleanContent := stripBlockComments (stripLineComments content.data)
  let statements := splitOnChar ';' cleanContent
  let results := statements.map sqlStatement
  { tables := results.filterMap Prod.fst
    relationships := (results.map Prod.snd).flatten
    rawContent := content }

/-! ## Dialect-C scanner (`parsePrisma`) -/

/-- `/^model\s+(\w+)\s+\x7b/` (anchored). -/
def prismaModelMatch (s : List Char) : Option (List Char) := do
  let s ← lit "model".data s
  let s ← spaces1 s
  let (name, s) ← word1 s
  let s ← spaces1 s
  let _ ← chr '{' s
  pure name

mutual
/-- JS `String.prototype.split(/\s+/)`: token accumulation phase. -/
def splitWsGo (acc : List Char) : List Char → List (List Char)
  | [] => [acc.reverse]
  | c :: rest =>
    if isJsSpace c then acc.reverse :: splitWsSkip rest
    else splitWsGo (c :: acc) rest

/-- JS `String.prototype.split(/\s+/)`: separator-run skipping phase. -/
def splitWsSkip : List Char → List (List Char)
  | [] => [[]]
  | c :: rest =>
    if isJsSpace c then splitWsSkip rest
    else splitWsGo [c] rest
end

/-- JS `String.prototype.split(/\s+/)`. -/
def splitWs (s : List Char) : List (List Char) :=
  splitWsGo [] s

/-- `col.type.replace(/[\[\]?]/g, '')`: strip array/optional markers. -/
def prismaCleanType (ty : List Char) : List Char :=
  ty.filter (fun c => ¬ (c = '[' ∨ c = ']' ∨ c = '?'))

/-- One iteration of the `lines.forEach` body in `parsePrisma` (first
pass: models and fields). -/
def prismaLine (st : ScanState) (line : List Char) : ScanState :=
  let tl := jsTrim line
  match prismaModelMatch tl with
  | some name =>
    { finished := scanFlush st, cur := some ⟨String.mk name, []⟩, rels := st.rels }
  | none =>
    if tl = "\x7d".data ∧ st.cur.isSome then
      { finished := scanFlush st, cur := none, rels := st.rels }
    else
      match st.cur with
      | some t =>
        if "@@".data.isPrefixOf tl ∨ "//".data.isPrefixOf tl ∨ tl = [] then st
        else
          match splitWs tl with
          | name :: ty :: attrs =>
            { st with cur := some { t with columns := t.columns ++
                [⟨String.mk name, String.mk ty,
                  some (String.intercalate " " (attrs.map String.mk))⟩] } }
          | _ => st
      | none => st

/-- Second pass of `parsePrisma`: a field whose cleaned type names a
known model and whose details contain `@relation` yields an edge (the
branch for `source.id < target` in the source is an empty no-op and
contributes nothing). -/
def prismaRelations (tables : List Table) : List Relationship :=
  tables.foldl (fun acc src =>
    src.columns.foldl (fun acc2 col =>
      let cleanType := String.mk (prismaCleanType col.type.data)
      if (tables.map Table.id).contains cleanType ∧
         ((col.details.map (fun d => containsSub "@relation".data d.data)).getD false) then
        acc2 ++ [⟨src.id, cleanType, some col.name⟩]
      else acc2) acc) []

/-- `parsePrisma` from `schemaParser.ts`. -/
def parsePrisma (content : String) : SchemaData :=
  let lines := splitOnChar '\n' content.data
  let st := lines.foldl prismaLine ⟨[], none, []⟩
  let tables := scanFlush st
  { tables := tables
    relationships := prismaRelations tables
    rawContent := content }

/-! ## Dialect-D scanner (`parseDjango`) -/

/-- `/^class\s+(\w+)\(.*\):/` (anchored): after `(`, the greedy
`.*\):` succeeds exactly when `):` occurs in the rest of the line. -/
def djangoClassMatch (s : List Char) : Option (List Char) := do
  let s ← lit "class".data s
  let s ← spaces1 s
  let (name, s) ← word1 s
  let s ← chr '(' s
  if containsSub "):".data (s.takeWhile (fun c => ¬ c = '\n')) then pure name
  else none

/-- The type alternation `(models\.\w+|[a-zA-Z0-9_]+)`: when the input
starts with `models.` only the first alternative can succeed (the
second would capture `models` and then fail on the following `.`,
which is neither `(` nor a word character under any shorter greedy
retry). -/
def djangoFieldType (s : List Char) : Option (List Char × List Char) :=
  match lit "models.".data s with
  | some rest =>
    match word1 rest with
    | some (w, r) => some ("models.".data ++ w, r)
    | none => none
  | none => word1 s

/-- `/^(\w+)\s*=\s*(models\.\w+|[a-zA-Z0-9_]+)\((.*)\)/` (anchored):
the greedy `(.*)\)` makes the argument capture run to the last `)` of
the line.  Returns (field name, field type, argument string). -/
def djangoFieldMatch (s : List Char) : Option (List Char × List Char × List Char) := do
  let (fname, s) ← word1 s
  let s := spaces0 s
  let s ← chr '=' s
  let s := spaces0 s
  let (fty, s) ← djangoFieldType s
  let s ← chr '(' s
  let noNL := s.takeWhile (fun c => ¬ c = '\n')
  let k ← lastIdxOf ')' noNL
  pure (fname, fty, noNL.take k)

/-- `/^(?:'|")?(\w+)(?:'|")?/` on the argument string of a reference
field: optional quote, then the target identifier. -/
def djangoTargetMatch (s : List Char) : Option (List Char) := do
  let s := optCharOf ['\'', '"'] s
  let (w, _) ← word1 s
  pure w

/-- One iteration of the `lines.forEach` body in `parseDjango`.  There
is no block-close token: the open class persists until the next class
header or end of input. -/
def djangoLine (st : ScanState) (line : List Char) : ScanState :=
  let tl := jsTrim line
  match djangoClassMatch tl with
  | some name =>
    { finished := scanFlush st, cur := some ⟨String.mk name, []⟩, rels := st.rels }
  | none =>
    match st.cur with
    | some t =>
      if tl.contains '=' then
        match djangoFieldMatch tl with
        | some (fname, fty, args) =>
          let st1 := { st with cur := some { t with columns := t.columns ++
              [⟨String.mk fname, String.mk fty, some (String.mk args)⟩] } }
          if containsSub "ForeignKey".data fty ∨ containsSub "OneToOneField".data fty ∨
             containsSub "ManyToManyField".data fty then
            match djangoTargetMatch args with
            | some tgt =>
              if ¬ String.mk tgt = "self" then
                { st1 with rels := st1.rels ++ [⟨t.id, String.mk tgt, some (String.mk fname)⟩] }
              else st1
            | none => st1
          else st1
        | none => st
      else st
    | none => st

/-- `parseDjango` from `schemaParser.ts`. -/
def parseDjango (content : String) : SchemaData :=
  let lines := splitOnChar '\n' content.data
  let st := lines.foldl djangoLine ⟨[], none, []⟩
  { tables := scanFlush st
    relationships := st.rels
    rawContent := content }

/-! ## Dialect detection (`parseSchema`) -/

/-- `filename.split('.').pop()?.toLowerCase()`. -/
def fileExt (filename : String) : List Char :=
  jsToLower ((splitOnChar '.' filename.data).getLastD [])

/-- `parseSchema` from `schemaParser.ts`: heuristic dialect detection,
each dialect tested in turn by extension or content marker, with
`parseRails` as the last-resort fallback. -/
def parseSchema (content : String) (filename : String := "") : SchemaData :=
  let ext := fileExt filename
  if ext = "prisma".data ∨ containsSub "generator client \x7b".data content.data then
    parsePrisma content
  else if ext = "py".data ∨ containsSub "models.Model".data content.data ∨
          containsSub "django.db".data content.data then
    parseDjango content
  else if ext = "rb".data ∨ containsSub "ActiveRecord::Schema".data content.data ∨
          containsSub "create_table".data content.data then
    parseRails content
  else if ext = "sql".data ∨ containsSub "CREATE TABLE".data (jsToUpper content.data) then
    parseSQL content
  else
    parseRails content

/-! ## Concrete inputs used by the claim theorems -/

/-- Dialect-A input: three tables, two explicit foreign keys, and a
`comments.user_id` column with no explicit `comments → users` edge. -/
def endToEndInput : String :=
  "create_table \"users\"\n  t.string \"name\"\nend\ncreate_table \"posts\"\n  t.integer \"user_id\"\nend\ncreate_table \"comments\"\n  t.integer \"user_id\"\n  t.integer \"post_id\"\nend\nadd_foreign_key \"posts\", \"users\"\nadd_foreign_key \"comments\", \"posts\""

/-- Dialect-A input with the same explicit foreign-key statement twice
plus a `user_id` column on `posts`. -/
def dupFkInput : String :=
  "create_table \"users\"\nend\ncreate_table \"posts\"\n  t.integer \"user_id\"\nend\nadd_foreign_key \"posts\", \"users\"\nadd_foreign_key \"posts\", \"users\""

/-- Dialect-A input declaring the table `users` twice. -/
def dupTableInput : String :=
  "create_table \"users\"\nend\ncreate_table \"users\"\nend"

/-- Content carrying the Dialect-C generator marker together with a SQL
table declaration. -/
def mixedMarkerInput : String :=
  "generator client \x7b\nCREATE TABLE users (id INT)"

/-- SQL declaring `users` and `posts`, with `posts.user_id` and no
explicit foreign key. -/
def sqlNoFkInput : String :=
  "CREATE TABLE users (id INT);\nCREATE TABLE posts (id INT, user_id INT);"

/-- Dialect-A input with tables `author`, `authors` (in that order) and
a `books.author_id` column. -/
def authorFirstInput : String :=
  "create_table \"author\"\nend\ncreate_table \"authors\"\nend\ncreate_table \"books\"\n  t.integer \"author_id\"\nend"

/-- Same as `authorFirstInput` with `authors` declared before `author`. -/
def authorsFirstInput : String :=
  "create_table \"authors\"\nend\ncreate_table \"author\"\nend\ncreate_table \"books\"\n  t.integer \"author_id\"\nend"

/-- Dialect-A input with one explicit column-less foreign key and a
`user_id` column that would infer the same (source, target) pair. -/
def explicitPlusInferredInput : String :=
  "create_table \"users\"\nend\ncreate_table \"posts\"\n  t.integer \"user_id\"\nend\nadd_foreign_key \"posts\", \"users\""

/-! ## Helper lemmas -/

theorem parseRails_rawContent (c : String) : (parseRails c).rawContent = c := rfl

theorem parseSQL_rawContent (c : String) : (parseSQL c).rawContent = c := rfl

theorem parsePrisma_rawContent (c : String) : (parsePrisma c).rawContent = c := rfl

theorem parseDjango_rawContent (c : String) : (parseDjango c).rawContent = c := rfl

/-! ## Claim theorems -/

/-- C1: for the Dialect-A input with tables `users`, `posts` (with
`user_id`) and `comments` (with `user_id` and `post_id`) and explicit
foreign keys `posts → users` and `comments → posts`, parse returns
exactly the two explicit edges plus the single inferred edge
`comments → users` via `user_id` (the `posts.user_id` and
`comments.post_id` columns infer nothing, their pairs already having
explicit edges). -/
theorem endToEnd_three_relationships :
    (parseSchema endToEndInput "schema.rb").tables.map Table.id =
      ["users", "posts", "comments"] ∧
    (parseSchema endToEndInput "schema.rb").relationships =
      [⟨"posts", "users", none⟩, ⟨"comments", "posts", none⟩,
       ⟨"comments", "users", some "user_id"⟩] := by
  decide

/-- C2 counterexample: two identical explicit foreign-key statements
`posts → users` plus an inferring `user_id` column do NOT collapse to
one relationship — the model keeps two entries for the pair. -/
theorem dupFk_pair_not_unique :
    ((parseSchema dupFkInput "schema.rb").relationships.countP
      (fun r => r.source == "posts" && r.target == "users")) ≠ 1 := by
  decide

/-- C2 amended: duplicate explicit (source, target, column) triples are
kept, not suppressed; only the inference pass deduplicates, skipping a
column whenever any existing relationship already has its (source,
target) pair.  For this input both explicit statements survive and the
inferred edge is dropped, leaving exactly two identical
relationships. -/
theorem dupFk_both_explicit_kept :
    (parseSchema dupFkInput "schema.rb").relationships =
      [⟨"posts", "users", none⟩, ⟨"posts", "users", none⟩] := by
  decide

/-- C3 counterexample: a source text with two declaration blocks for
the same table name yields two Table entries with equal id — Table.id
is not unique within the returned SchemaModel. -/
theorem dupTable_ids_not_nodup :
    ¬ ((parseSchema dupTableInput "schema.rb").tables.map Table.id).Nodup := by
  decide

/-- C3 amended: every declaration block produces its own Table entry,
so duplicate declarations of the same name produce duplicate ids: this
input returns two distinct entries both with id `users`. -/
theorem dupTable_two_entries :
    (parseSchema dupTableInput "schema.rb").tables =
      [⟨"users", []⟩, ⟨"users", []⟩] := by
  decide

/-- C4 counterexample: a `.sql` filename with content containing the
Dialect-C generator marker does not select the Dialect-B scanner — the
returned model has no tables although the Dialect-B scanner would have
produced one. -/
theorem sqlExt_loses_to_prisma_marker :
    (parseSchema mixedMarkerInput "a.sql").tables = [] ∧
    (parseSQL mixedMarkerInput).tables ≠ [] := by
  decide

/-- C4 amended: detection tests the dialects in the fixed order C, D,
A, B, each by extension or content marker together, so an extension
beats only the content markers of dialects tested later: a `.prisma`
extension with `CREATE TABLE` content still selects the Dialect-C
scanner, but a `.sql` extension with a Dialect-C generator marker also
selects the Dialect-C scanner. -/
theorem detection_fixed_dialect_order :
    parseSchema "CREATE TABLE users (id INT)" "s.prisma" =
      parsePrisma "CREATE TABLE users (id INT)" ∧
    parseSchema mixedMarkerInput "a.sql" = parsePrisma mixedMarkerInput := by
  decide

/-- C5 counterexample: a SQL input whose `posts` table has a `user_id`
column and no explicit FOREIGN KEY yields no `posts → users` edge — the
`_id` inference pass does not run for Dialect-B. -/
theorem sql_no_inferred_edge :
    ((parseSchema sqlNoFkInput "schema.sql").relationships.any
      (fun r => r.source == "posts" && r.target == "users")) = false := by
  decide

/-- C5 amended: the `_id`-suffix inference runs only inside the
Dialect-A scanner; the Dialect-B scanner emits only explicit
FOREIGN KEY / ALTER TABLE edges, so this input parses both tables but
returns an empty relationships list. -/
theorem sql_scan_without_inference :
    (parseSchema sqlNoFkInput "schema.sql").tables.map Table.id =
      ["users", "posts"] ∧
    (parseSchema sqlNoFkInput "schema.sql").relationships = [] := by
  decide

/-- C6 counterexample: with `author` declared before `authors`, the
column `author_id` infers target `author`, not `authors` — candidate
priority does not decide the tie. -/
theorem author_declared_first_wins :
    (parseSchema authorFirstInput "schema.rb").relationships =
      [⟨"books", "author", some "author_id"⟩] := by
  decide

/-- C6 amended: among the candidate targets of an `_id` column the
inferencer picks the first table in declaration order whose id is a
candidate (the source uses `tables.find` over the table list), so the
winner between `author` and `authors` is whichever was declared first. -/
theorem declaration_order_decides_tie :
    (parseSchema authorsFirstInput "schema.rb").relationships =
      [⟨"books", "authors", some "author_id"⟩] ∧
    (parseSchema authorFirstInput "schema.rb").relationships.map
      Relationship.target = ["author"] := by
  decide

/-- C7 counterexample: with an explicit column-less `posts → users`
statement and a `posts.user_id` column, the inferred edge with
column `user_id` does NOT appear in the final model. -/
theorem inferred_edge_absent :
    Relationship.mk "posts" "users" (some "user_id") ∉
      (parseSchema explicitPlusInferredInput "schema.rb").relationships := by
  decide

/-- C7 amended: the inference-time duplicate check keys on (source,
target) only, not the full (source, target, column) triple, so an
inferred edge is suppressed by an explicit edge on the same pair even
though their columns differ: only the explicit column-less edge
remains. -/
theorem pair_key_suppresses_inferred :
    (parseSchema explicitPlusInferredInput "schema.rb").relationships =
      [⟨"posts", "users", none⟩] := by
  decide

/-- C8: parse is total by construction (`parseSchema` is a total Lean
function over arbitrary strings), and on the empty string with filename
`x.txt` it returns the SchemaModel with no tables, no relationships and
the original empty raw content. -/
theorem parse_empty_input :
    parseSchema "" "x.txt" = ⟨[], [], ""⟩ := by
  decide

/-- C9: for every input string and filename, whatever dialect the
detector selects, the returned model's rawContent is the original input
text character for character (Dialect-B strips comments only from an
internal working copy). -/
theorem rawContent_verbatim (content filename : String) :
    (parseSchema content filename).rawContent = content := by
  unfold parseSchema
  dsimp only
  repeat' split
  all_goals rfl

/-- C10: in the Dialect-B scanner, a statement matching the
table-creation header whose trimmed text has no `(` or no `)` still
produces a Table with the extracted name and an empty column list in
the output — the statement is not skipped. -/
theorem create_table_without_body (content : String) (stmt name : List Char)
    (hmem : stmt ∈ splitOnChar ';' (stripBlockComments (stripLineComments content.data)))
    (hmatch : sqlCreateTableMatch (jsTrim stmt) = some name)
    (hnobody : firstIdxOf '(' (jsTrim stmt) = none ∨ lastIdxOf ')' (jsTrim stmt) = none) :
    Table.mk (String.mk name) [] ∈ (parseSQL content).tables := by
  have hstep : (sqlStatement stmt).1 = some ⟨String.mk name, []⟩ := by
    unfold sqlStatement
    rcases hnobody with h | h
    · simp [hmatch, h]
    · cases hfi : firstIdxOf '(' (jsTrim stmt) <;> simp [hmatch, h, hfi]
  unfold parseSQL
  dsimp only
  exact List.mem_filterMap.mpr
    ⟨sqlStatement stmt, List.mem_map_of_mem sqlStatement hmem, hstep⟩

/-- Witness for C10: the single-statement input `CREATE TABLE users`
(no parenthesized body) satisfies the hypotheses and yields the table
`users` with no columns. -/
theorem create_table_without_body_witness :
    Table.mk "users" [] ∈ (parseSQL "CREATE TABLE users").tables :=
  create_table_without_body "CREATE TABLE users" "CREATE TABLE users".data
    "users".data (by decide) (by decide) (Or.inl (by decide))

end RailsSchema
